import Mathlib

/-!
Verification of the capability-orchestration core of the `poc` trading-assistant
repository: a shallow embedding, in Lean, of the Python code in
`src/agents/agent_manager.py`, `src/agents/tool_integration.py`,
`src/agents/comprehensive_analysis_agent.py` and
`src/scripts/trading_assistant.py`, together with theorems settling the
frozen claims about error containment, parallel/sequential dispatch
equivalence, TTL caching, keyword-based tool selection, ring-buffer session
history, sentiment synthesis, batch accounting, worker bounds, and the
cache truthiness gate.

Modelling conventions, used throughout:
* Python JSON-like values (`dict`/`list`/`str`/numbers/bools/`None`) become
  the inductive type `PyVal`; Python `dict`s become association lists
  (`List (String × PyVal)`) with first-match lookup and in-place update,
  matching CPython insertion-order semantics.
* Python floats are modelled as exact rationals (`ℚ`); the numeric claims
  compare against thresholds like `0.3` that are never hit exactly here.
* Wall-clock timestamps (`time.time()`, `datetime.now()`) are threaded as
  explicit `ℚ` parameters; purely informational `"timestamp"` fields of
  result dictionaries are omitted since no claim inspects them.
* A capability's `process_request` (out of scope for the orchestration
  core: the agents fabricate data) is a parameter of type
  `String → Option PyVal → Except String (List (String × PyVal))`,
  where `Except.error msg` models the handler raising an exception whose
  `str()` is `msg`.
-/

/-- JSON-like Python value, as passed between the orchestration components. -/
inductive PyVal where
  | num : ℚ → PyVal
  | str : String → PyVal
  | bool : Bool → PyVal
  | none : PyVal
  | list : List PyVal → PyVal
  | dict : List (String × PyVal) → PyVal

/-- First-match lookup in an association list, i.e. Python `d[k]` /
`d.get(k)` on a dict whose keys are unique. -/
def alistGet {α : Type} : List (String × α) → String → Option α
  | [], _ => Option.none
  | (k, v) :: rest, key => if k = key then some v else alistGet rest key

/-- Python `d[k] = v` on a dict: overwrite in place if the key exists
(keeping its position, as CPython does), else append. -/
def alistSet {α : Type} : List (String × α) → String → α → List (String × α)
  | [], key, v => [(key, v)]
  | (k, w) :: rest, key, v =>
    if k = key then (key, v) :: rest else (k, w) :: alistSet rest key v

/-- Python `del d[k]` on a dict. -/
def alistDel {α : Type} : List (String × α) → String → List (String × α)
  | [], _ => []
  | (k, w) :: rest, key => if k = key then rest else (k, w) :: alistDel rest key

/-- Python `k in d` on a dict. -/
def hasKey (d : List (String × PyVal)) (key : String) : Bool :=
  (alistGet d key).isSome

/-- Python truthiness (`bool(v)`) of a JSON-like value. -/
def pyTruthy : PyVal → Bool
  | PyVal.num q => q ≠ 0
  | PyVal.str s => s ≠ ""
  | PyVal.bool b => b
  | PyVal.none => false
  | PyVal.list l => !l.isEmpty
  | PyVal.dict d => !d.isEmpty

/-- Does the character list `needle` occur at the start of `hay`? -/
def charsStartWith : List Char → List Char → Bool
  | [], _ => true
  | _ :: _, [] => false
  | n :: ns, h :: hs => n == h && charsStartWith ns hs

/-- Does the character list `needle` occur contiguously inside `hay`? -/
def charsInfix (needle : List Char) : List Char → Bool
  | [] => needle.isEmpty
  | h :: t => charsStartWith needle (h :: t) || charsInfix needle t

/-- Python `needle in hay` on strings (contiguous substring test). -/
def strContains (hay needle : String) : Bool :=
  charsInfix needle.toList hay.toList

/-- Python `s.lower()` (the same function as `String.toLower`, written via
the character list so that kernel evaluation reduces). -/
def pyLower (s : String) : String :=
  String.mk (s.toList.map Char.toLower)

@[simp] theorem alistGet_nil {α : Type} (key : String) :
    alistGet ([] : List (String × α)) key = Option.none := rfl

@[simp] theorem alistGet_cons {α : Type} (k : String) (v : α) (rest) (key) :
    alistGet ((k, v) :: rest) key =
      if k = key then some v else alistGet rest key := rfl

theorem alistGet_alistSet {α : Type} (d : List (String × α)) (k key : String) (v : α) :
    alistGet (alistSet d k v) key = if k = key then some v else alistGet d key := by
  induction d with
  | nil => simp [alistSet]
  | cons hd tl ih =>
    obtain ⟨k', v'⟩ := hd
    by_cases h1 : k' = k
    · subst h1
      by_cases h2 : k' = key
      · subst h2
        simp [alistSet]
      · simp [alistSet, h2]
    · by_cases h2 : k' = key
      · subst h2
        have hk : ¬k = k' := fun e => h1 e.symm
        simp [alistSet, h1, hk]
      · simp [alistSet, h1, h2, ih]

theorem alistGet_alistDel_ne {α : Type} (d : List (String × α)) (k key : String)
    (hne : k ≠ key) : alistGet (alistDel d k) key = alistGet d key := by
  induction d with
  | nil => simp [alistDel]
  | cons hd tl ih =>
    obtain ⟨k', v'⟩ := hd
    by_cases h : k' = k
    · subst h
      simp [alistDel, hne]
    · simp [alistDel, h, ih]

theorem alistGet_mem {α : Type} {d : List (String × α)} {key : String} {v : α}
    (h : alistGet d key = some v) : (key, v) ∈ d := by
  induction d with
  | nil => simp [alistGet] at h
  | cons hd tl ih =>
    obtain ⟨k', v'⟩ := hd
    by_cases hk : k' = key
    · subst hk
      rw [alistGet_cons, if_pos rfl] at h
      simp only [Option.some.injEq] at h
      subst h
      exact List.mem_cons_self _ _
    · rw [alistGet_cons, if_neg hk] at h
      exact List.mem_cons_of_mem _ (ih h)

/-! ## `ToolCache` (`src/scripts/trading_assistant.py`, lines 77-99)

Thread-safe TTL cache.  All accesses in the source are serialized by a
single lock, so every operation is modelled as an atomic state transition;
`time.time()` is passed in as the explicit parameter `now`. -/

/-- State of `ToolCache`: the `_cache` dict, the `_timestamps` dict and the
configured `_ttl`. -/
structure ToolCache where
  cache : List (String × PyVal)
  timestamps : List (String × ℚ)
  ttl : ℚ

/-- `ToolCache.__init__(ttl_seconds)`. -/
def ToolCache.init (ttlSeconds : ℚ) : ToolCache :=
  { cache := [], timestamps := [], ttl := ttlSeconds }

/-- `ToolCache.get`: miss on an absent key; on a present key whose age
exceeds the TTL, delete the entry from both dicts and miss; otherwise hit,
leaving the state unchanged (lazy expiry, exactly as in the source).
The `(value, timestamp)` pair is read from the two dicts; an entry present
in `_cache` but absent from `_timestamps` is unreachable (both writes and
both deletes are paired in the source; Python would raise `KeyError`), and
the embedding returns a hit there. -/
def ToolCache.get (c : ToolCache) (now : ℚ) (key : String) :
    Option PyVal × ToolCache :=
  match alistGet c.cache key with
  | Option.none => (Option.none, c)
  | some v =>
    match alistGet c.timestamps key with
    | some ts =>
      if now - ts > c.ttl then
        (Option.none,
          { c with cache := alistDel c.cache key,
                   timestamps := alistDel c.timestamps key })
      else (some v, c)
    | Option.none => (some v, c)

/-- `ToolCache.set`: store the value with the current timestamp, overwriting
any existing entry for that key. -/
def ToolCache.set (c : ToolCache) (now : ℚ) (key : String) (v : PyVal) : ToolCache :=
  { c with cache := alistSet c.cache key v,
           timestamps := alistSet c.timestamps key now }

theorem alistGet_eq_none_of_not_mem_keys {α : Type} {d : List (String × α)} {key : String}
    (h : key ∉ d.map Prod.fst) : alistGet d key = Option.none := by
  induction d with
  | nil => rfl
  | cons hd tl ih =>
    obtain ⟨k', v'⟩ := hd
    simp only [List.map_cons, List.mem_cons] at h
    push_neg at h
    rw [alistGet_cons, if_neg (fun e => h.1 e.symm)]
    exact ih h.2

theorem mem_keys_alistSet {α : Type} (d : List (String × α)) (k key : String) (v : α) :
    key ∈ (alistSet d k v).map Prod.fst ↔ key ∈ d.map Prod.fst ∨ key = k := by
  induction d with
  | nil => simp [alistSet]
  | cons hd tl ih =>
    obtain ⟨k', v'⟩ := hd
    by_cases h : k' = k
    · subst h
      simp [alistSet]
      tauto
    · simp [alistSet, h, ih]
      tauto

theorem keys_nodup_alistSet {α : Type} {d : List (String × α)} (k : String) (v : α)
    (h : (d.map Prod.fst).Nodup) : ((alistSet d k v).map Prod.fst).Nodup := by
  induction d with
  | nil => simp [alistSet]
  | cons hd tl ih =>
    obtain ⟨k', v'⟩ := hd
    simp only [List.map_cons, List.nodup_cons] at h
    by_cases he : k' = k
    · subst he
      simpa [alistSet] using h
    · rw [alistSet, if_neg he]
      simp only [List.map_cons, List.nodup_cons]
      refine ⟨?_, ih h.2⟩
      rw [mem_keys_alistSet]
      rintro (hm | hm)
      · exact h.1 hm
      · exact he hm

theorem alistGet_alistDel_self {α : Type} {d : List (String × α)} (k : String)
    (h : (d.map Prod.fst).Nodup) : alistGet (alistDel d k) k = Option.none := by
  induction d with
  | nil => rfl
  | cons hd tl ih =>
    obtain ⟨k', v'⟩ := hd
    simp only [List.map_cons, List.nodup_cons] at h
    by_cases he : k' = k
    · subst he
      rw [alistDel, if_pos rfl]
      exact alistGet_eq_none_of_not_mem_keys h.1
    · rw [alistDel, if_neg he, alistGet_cons, if_neg he]
      exact ih h.2

/-- C3: `set(k, v)` followed by `get(k)` within the TTL returns exactly `v`
and leaves the cache untouched; a `get(k)` after the TTL has elapsed
returns absent and deletes the entry from both underlying dicts; and expiry
is lazy only — neither `set` of any key nor `get` of any key removes an
entry that is still unexpired at the time of the operation (`set` and `get`
are the only operations `ToolCache` has). -/
theorem toolCache_ttl_round_trip (c : ToolCache) (t0 t : ℚ) (k : String) (v : PyVal)
    (hc : (c.cache.map Prod.fst).Nodup) (ht : (c.timestamps.map Prod.fst).Nodup) :
    (t - t0 ≤ c.ttl → (c.set t0 k v).get t k = (some v, c.set t0 k v)) ∧
    (t - t0 > c.ttl →
      ((c.set t0 k v).get t k).1 = Option.none ∧
      alistGet ((c.set t0 k v).get t k).2.cache k = Option.none ∧
      alistGet ((c.set t0 k v).get t k).2.timestamps k = Option.none) ∧
    (∀ w ts, alistGet c.cache k = some w → alistGet c.timestamps k = some ts →
      t - ts ≤ c.ttl →
      (∀ k' v', (alistGet ((c.set t k' v').cache) k).isSome = true) ∧
      (∀ k', alistGet ((c.get t k').2).cache k = some w)) := by
  have hgetc : alistGet (alistSet c.cache k v) k = some v := by
    rw [alistGet_alistSet, if_pos rfl]
  have hgett : alistGet (alistSet c.timestamps k t0) k = some t0 := by
    rw [alistGet_alistSet, if_pos rfl]
  refine ⟨?_, ?_, ?_⟩
  · intro hle
    show ToolCache.get _ t k = _
    rw [ToolCache.get]
    simp only [ToolCache.set, hgetc, hgett]
    rw [if_neg (by simpa using not_lt.mpr hle)]
  · intro hgt
    show ((ToolCache.get _ t k).1 = _) ∧ _
    rw [ToolCache.get]
    simp only [ToolCache.set, hgetc, hgett]
    rw [if_pos hgt]
    refine ⟨rfl, ?_, ?_⟩
    · exact alistGet_alistDel_self k (keys_nodup_alistSet k v hc)
    · exact alistGet_alistDel_self k (keys_nodup_alistSet k t0 ht)
  · intro w ts hw hts hfresh
    constructor
    · intro k' v'
      rw [ToolCache.set]
      by_cases he : k' = k
      · subst he
        rw [alistGet_alistSet, if_pos rfl]
        rfl
      · rw [alistGet_alistSet, if_neg he, hw]
        rfl
    · intro k'
      by_cases he : k' = k
      · subst he
        rw [ToolCache.get]
        simp only [hw, hts]
        rw [if_neg (by simpa using not_lt.mpr hfresh)]
        exact hw
      · cases h1 : alistGet c.cache k' with
        | none =>
          rw [ToolCache.get]
          simp only [h1]
          exact hw
        | some v'' =>
          cases h2 : alistGet c.timestamps k' with
          | none =>
            rw [ToolCache.get]
            simp only [h1, h2]
            exact hw
          | some ts'' =>
            by_cases h3 : t - ts'' > c.ttl
            · rw [ToolCache.get]
              simp only [h1, h2]
              rw [if_pos h3]
              show alistGet (alistDel c.cache k') k = some w
              rw [alistGet_alistDel_ne _ _ _ he]
              exact hw
            · rw [ToolCache.get]
              simp only [h1, h2]
              rw [if_neg h3]
              exact hw

/-- C3 witness: a concrete round trip through the cache with `ttl = 600`:
a value written at time `0` is still returned at time `500` and is gone at
time `700`. -/
theorem toolCache_ttl_round_trip_witness :
    ((ToolCache.init 600).set 0 "news" (PyVal.str "cached")).get 500 "news" =
      (some (PyVal.str "cached"), (ToolCache.init 600).set 0 "news" (PyVal.str "cached")) ∧
    (((ToolCache.init 600).set 0 "news" (PyVal.str "cached")).get 700 "news").1 =
      Option.none := by
  constructor
  · exact (toolCache_ttl_round_trip (ToolCache.init 600) 0 500 "news" (PyVal.str "cached")
      (by simp [ToolCache.init]) (by simp [ToolCache.init])).1 (by norm_num [ToolCache.init])
  · exact ((toolCache_ttl_round_trip (ToolCache.init 600) 0 700 "news" (PyVal.str "cached")
      (by simp [ToolCache.init]) (by simp [ToolCache.init])).2.1
      (by norm_num [ToolCache.init])).1

/-! ## `SmartToolSelector` (`src/scripts/trading_assistant.py`, lines 102-128)

`select_tools` lowercases the query, inserts into a Python `set` every tool
whose keyword list has a substring match, falls back to `DEFAULT_TOOLS`
when the set is empty, and returns `list(selected_tools)`.  The *contents*
of the set are determined by the keyword table; the *iteration order* of a
CPython set of strings depends on the process's hash seed, so the
conversion `list(...)` is modelled by a parameter `setOrder`, constrained
in the theorems to emit a permutation of the set's contents. -/

/-- `SmartToolSelector.TOOL_KEYWORDS` (lines 105-113), in source order. -/
def toolKeywords : List (String × List String) :=
  [("check_market_news", ["news", "headlines", "announcement"]),
   ("get_market_data", ["price", "data", "technical", "chart"]),
   ("analyze_market_sentiment", ["sentiment", "bullish", "bearish"]),
   ("assess_portfolio_risk", ["risk", "portfolio", "var", "drawdown"]),
   ("detect_trading_patterns", ["pattern", "psychology", "bias", "fomo"]),
   ("get_comprehensive_analysis", ["comprehensive", "complete", "detailed"]),
   ("check_market_conditions", ["market", "condition", "trend"])]

/-- `SmartToolSelector.DEFAULT_TOOLS` (line 115). -/
def defaultTools : List String :=
  ["check_market_conditions", "detect_trading_patterns"]

/-- The tools inserted into `selected_tools` by the keyword loop of
`select_tools`, listed in keyword-table order (these are exactly the
contents of the set; the table's keys are distinct, so no duplicate
insertions occur). -/
def matchedTools (query : String) : List String :=
  (toolKeywords.filter
    (fun p => p.2.any (fun kw => strContains (pyLower query) kw))).map Prod.fst

/-- Contents of `selected_tools` after the fallback
`if not selected_tools: selected_tools.update(DEFAULT_TOOLS)`. -/
def selectedToolsSet (query : String) : List String :=
  let m := matchedTools query
  if m.isEmpty then defaultTools else m

/-- `SmartToolSelector.select_tools`: `list(selected_tools)`, where
`setOrder` stands for the hash-seed-dependent set iteration order. -/
def select_tools (setOrder : List String → List String) (query : String) :
    List String :=
  setOrder (selectedToolsSet query)

/-- Keyword test for one branch of `SmartTradingAgent.analyze_request`
(`src/agents/tool_integration.py`): append `toolName` when any of `words`
occurs in the lowercased request. -/
def appendIfAny (rl : String) (words : List String) (toolName : String)
    (acc : List String) : List String :=
  if words.any (fun w => strContains rl w) then acc ++ [toolName] else acc

/-- The `tools_needed` list computed by `SmartTradingAgent.analyze_request`
(`src/agents/tool_integration.py`, lines 235-265), including its fallback
`tools_needed.append("check_market_conditions")` on an empty list. -/
def analyzeRequestTools (userRequest : String) : List String :=
  let rl := pyLower userRequest
  let t := appendIfAny rl ["news", "headlines", "announcement", "event"]
    "check_market_news" []
  let t := appendIfAny rl ["price", "quote", "technical", "chart", "market data"]
    "get_market_data" t
  let t := appendIfAny rl ["sentiment", "social", "buzz", "options flow"]
    "analyze_market_sentiment" t
  let t := appendIfAny rl ["risk", "portfolio", "position size", "var", "correlation"]
    "assess_portfolio_risk" t
  let t := appendIfAny rl ["pattern", "behavior", "psychology", "bias", "fomo"]
    "detect_trading_patterns" t
  let t := appendIfAny rl ["comprehensive", "complete", "full analysis"]
    "get_comprehensive_analysis" t
  let t := appendIfAny rl ["market condition", "overview", "environment"]
    "check_market_conditions" t
  if t.isEmpty then t ++ ["check_market_conditions"] else t

theorem toolKeywords_keys_nodup : (toolKeywords.map Prod.fst).Nodup := by
  decide

theorem selectedToolsSet_nodup (q : String) : (selectedToolsSet q).Nodup := by
  rw [selectedToolsSet]
  split_ifs with h
  · decide
  · rw [matchedTools]
    exact List.Nodup.sublist (List.Sublist.map Prod.fst (List.filter_sublist toolKeywords))
      toolKeywords_keys_nodup

/-- C4 counterexample: the claim asserts that the selector's returned list
is ordered by first-seen position in the keyword table.  The source builds
a Python `set` and returns `list(selected_tools)`, whose order is the
hash-seed-dependent set iteration order, not the table order: under an
iteration order that happens to emit the two matched tools reversed (a
permutation, hence a possible set order), the query "news price" yields
the matched pair in the opposite of table order.  Hence it is false that
for every set-iteration order the output is the table-ordered match list. -/
theorem select_tools_table_order_counterexample :
    ¬ (∀ f : List String → List String, (∀ l, (f l).Perm l) →
        ∀ q : String, select_tools f q = selectedToolsSet q) := by
  intro h
  have hq := h List.reverse (fun l => List.reverse_perm l) "news price"
  rw [select_tools] at hq
  have hset : selectedToolsSet "news price" =
      ["check_market_news", "get_market_data"] := by decide
  rw [hset] at hq
  exact absurd hq (by decide)

/-- C4 (amended): for a fixed set-iteration order (the hash seed is fixed
within a CPython process, so repeated calls with the same query return the
same list — determinism holds), `select_tools` returns a duplicate-free
list that is a permutation of the capabilities whose keyword lists match
the lowercased query, collected in keyword-table order (or of the default
pair when nothing matches); the *order* of the returned list is the set
iteration order, not necessarily the table order. -/
theorem select_tools_perm_dedup (f : List String → List String)
    (hf : ∀ l, (f l).Perm l) (q : String) :
    (select_tools f q).Perm (selectedToolsSet q) ∧
    (select_tools f q).Nodup := by
  refine ⟨hf _, ?_⟩
  exact ((hf _).nodup_iff).mpr (selectedToolsSet_nodup q)

/-- C4 witness: the amended theorem applied at the identity iteration
order and the query "news price". -/
theorem select_tools_perm_dedup_witness :
    (select_tools id "news price").Perm (selectedToolsSet "news price") ∧
    (select_tools id "news price").Nodup :=
  select_tools_perm_dedup id (fun l => List.Perm.refl l) "news price"

/-- C5: for every query, `SmartToolSelector.select_tools` returns a
non-empty list; when no keyword matches, its contents are exactly the
configured `DEFAULT_TOOLS` pair (the market-conditions and
pattern-detection tools); and `SmartTradingAgent.analyze_request`
(the second routing table, `src/agents/tool_integration.py`) likewise
never returns an empty tool list, falling back to
`check_market_conditions`. -/
theorem selector_never_empty (f : List String → List String)
    (hf : ∀ l, (f l).Perm l) (q : String) :
    select_tools f q ≠ [] ∧
    (matchedTools q = [] → (select_tools f q).Perm defaultTools) ∧
    defaultTools = ["check_market_conditions", "detect_trading_patterns"] ∧
    analyzeRequestTools q ≠ [] := by
  have hset : selectedToolsSet q ≠ [] := by
    rw [selectedToolsSet]
    split_ifs with h
    · decide
    · simpa using h
  refine ⟨?_, ?_, rfl, ?_⟩
  · intro hnil
    exact hset (((hf (selectedToolsSet q)).symm.trans (hnil ▸ List.Perm.refl [])).eq_nil)
  · intro hm
    have : selectedToolsSet q = defaultTools := by
      rw [selectedToolsSet, hm]
      rfl
    exact this ▸ hf (selectedToolsSet q)
  · rw [analyzeRequestTools]
    generalize (appendIfAny (pyLower q) ["market condition", "overview", "environment"]
      "check_market_conditions" _) = t
    split_ifs with h
    · simp
    · simpa using h

/-- C5 witness: applied at the identity iteration order and a query with
no keyword match, discharging the fallback hypothesis concretely. -/
theorem selector_never_empty_witness :
    select_tools id "hello there" ≠ [] ∧
    (select_tools id "hello there").Perm defaultTools ∧
    analyzeRequestTools "hello there" ≠ [] := by
  refine ⟨(selector_never_empty id (fun l => List.Perm.refl l) "hello there").1,
    (selector_never_empty id (fun l => List.Perm.refl l) "hello there").2.1 (by decide),
    (selector_never_empty id (fun l => List.Perm.refl l) "hello there").2.2.2⟩

/-! ## `AgentManager` dispatch (`src/agents/agent_manager.py`)

`query_agent` (lines 47-66) looks the agent up in `self.agents`, returns
an error dict listing the available agents when the name is unknown, and
wraps any exception raised by `process_request` into an error dict.  The
five concrete agents are out-of-scope data fabricators, so the agent table
is a parameter: a handler is `process_request`, with `Except.error msg`
modelling a raised exception whose `str()` is `msg`. -/

/-- `process_request(request, context)` of one agent. -/
abbrev Handler : Type :=
  String → Option PyVal → Except String (List (String × PyVal))

/-- The `self.agents` table, in registration order. -/
abbrev AgentEnv : Type := List (String × Handler)

/-- `AgentManager.query_agent` (lines 47-66).  The interaction logged via
`_log_interaction` is modelled separately (see `logInteraction`), and the
`"timestamp"` field of the error dict is omitted (wall clock). -/
def query_agent (env : AgentEnv) (agentType request : String)
    (ctx : Option PyVal) : List (String × PyVal) :=
  match alistGet env agentType with
  | Option.none =>
    [("error", PyVal.str ("Unknown agent type: " ++ agentType)),
     ("available_agents", PyVal.list (env.map (fun p => PyVal.str p.1)))]
  | some h =>
    match h request ctx with
    | Except.ok response => response
    | Except.error e =>
      [("error", PyVal.str ("Agent '" ++ agentType ++
          "' failed to process request: " ++ e)),
       ("agent", PyVal.str agentType)]

/-- One element of the `requests` list passed to
`query_multiple_agents`: a dict with `agent_type`, `request` and optional
`context` keys. -/
structure AgentRequest where
  agentType : String
  request : String
  context : Option PyVal

/-- The `results` dict built by a dispatch loop: each completed request
executes `results[agent_type] = query_agent(...)`, in the given order. -/
def resultsFold (env : AgentEnv) (init : List (String × List (String × PyVal)))
    (reqs : List AgentRequest) : List (String × List (String × PyVal)) :=
  reqs.foldl
    (fun acc r => alistSet acc r.agentType
      (query_agent env r.agentType r.request r.context)) init

/-- The dict returned by `_query_agents_parallel` / `_query_agents_sequential`
(minus the wall-clock `"timestamp"` field). -/
structure BatchResult where
  executionType : String
  agentsQueried : ℕ
  successfulQueries : ℕ
  results : List (String × List (String × PyVal))

/-- `successful_queries`:
`len([r for r in results.values() if "error" not in r])`. -/
def countSuccesses (results : List (String × List (String × PyVal))) : ℕ :=
  (results.filter (fun kv => !hasKey kv.2 "error")).length

/-- `AgentManager._query_agents_sequential` (lines 116-135). -/
def query_agents_sequential (env : AgentEnv) (reqs : List AgentRequest) :
    BatchResult :=
  let results := resultsFold env [] reqs
  { executionType := "sequential", agentsQueried := reqs.length,
    successfulQueries := countSuccesses results, results := results }

/-- `AgentManager._query_agents_parallel` (lines 80-114).  Creating
`ThreadPoolExecutor(max_workers=len(requests))` raises `ValueError` when
`requests` is empty (`max_workers` must be positive), modelled as
`Except.error`; otherwise every submitted task runs `query_agent` and the
results dict is written in `as_completed` order, modelled by the `order`
parameter (constrained to a permutation of `reqs` in the theorems).  The
`except` branch around `future.result()` is dead code: `query_agent`
catches every exception itself. -/
def query_agents_parallel (env : AgentEnv) (reqs order : List AgentRequest) :
    Except String BatchResult :=
  if reqs.isEmpty then
    Except.error "ValueError: max_workers must be greater than 0"
  else
    let results := resultsFold env [] order
    Except.ok
      { executionType := "parallel", agentsQueried := reqs.length,
        successfulQueries := countSuccesses results, results := results }

/-! ## `AgentToolRegistry.call_tool` (`src/agents/tool_integration.py`, lines 103-129)

The seven `_register_tools` entries bind thin adapters that delegate to
`AgentManager`; `call_tool` is uniform in the table, so the table is a
parameter. -/

/-- One registered tool: its `agent_type` tag and its `function`, taking
the keyword arguments; `Except.error msg` models a raised exception. -/
structure ToolSpec where
  agentType : String
  fn : List (String × PyVal) → Except String PyVal

/-- `AgentToolRegistry.call_tool`: unknown tool → error dict listing
`available_tools`; a raising tool function → `success: False` dict carrying
`str(e)`; otherwise a `success: True` dict with the result (the
`"timestamp"` field is omitted as wall clock). -/
def call_tool (tools : List (String × ToolSpec)) (toolName : String)
    (kwargs : List (String × PyVal)) : List (String × PyVal) :=
  match alistGet tools toolName with
  | Option.none =>
    [("error", PyVal.str ("Tool '" ++ toolName ++ "' not found")),
     ("available_tools", PyVal.list (tools.map (fun p => PyVal.str p.1)))]
  | some t =>
    match t.fn kwargs with
    | Except.ok result =>
      [("tool_name", PyVal.str toolName), ("agent_type", PyVal.str t.agentType),
       ("success", PyVal.bool true), ("result", result)]
    | Except.error e =>
      [("tool_name", PyVal.str toolName), ("success", PyVal.bool false),
       ("error", PyVal.str e)]

theorem mem_alistSet {α : Type} {d : List (String × α)} {k : String} {v : α}
    {x : String × α} (h : x ∈ alistSet d k v) : x ∈ d ∨ x = (k, v) := by
  induction d with
  | nil =>
    simp [alistSet] at h
    exact Or.inr h
  | cons hd tl ih =>
    obtain ⟨k', v'⟩ := hd
    by_cases he : k' = k
    · subst he
      rw [alistSet, if_pos rfl] at h
      rcases List.mem_cons.mp h with h | h
      · exact Or.inr h
      · exact Or.inl (List.mem_cons_of_mem _ h)
    · rw [alistSet, if_neg he] at h
      rcases List.mem_cons.mp h with h | h
      · exact Or.inl (h ▸ List.mem_cons_self _ _)
      · rcases ih h with h | h
        · exact Or.inl (List.mem_cons_of_mem _ h)
        · exact Or.inr h

theorem resultsFold_entry_mem {env : AgentEnv} {reqs : List AgentRequest}
    {init : List (String × List (String × PyVal))} {k : String}
    {d : List (String × PyVal)} (h : (k, d) ∈ resultsFold env init reqs) :
    (k, d) ∈ init ∨ ∃ r ∈ reqs, r.agentType = k ∧
      d = query_agent env r.agentType r.request r.context := by
  induction reqs generalizing init with
  | nil => exact Or.inl h
  | cons r t ih =>
    rw [resultsFold, List.foldl_cons] at h
    rcases ih h with h | h
    · rcases mem_alistSet h with h | h
      · exact Or.inl h
      · refine Or.inr ⟨r, List.mem_cons_self _ _, ?_, ?_⟩
        · exact (Prod.mk.injEq _ _ _ _ ▸ h).1.symm ▸ rfl
        · cases h
          rfl
    · obtain ⟨r', hr', hk, hd⟩ := h
      exact Or.inr ⟨r', List.mem_cons_of_mem _ hr', hk, hd⟩

theorem alistGet_isSome_iff_mem_keys {α : Type} (d : List (String × α)) (key : String) :
    (alistGet d key).isSome = true ↔ key ∈ d.map Prod.fst := by
  induction d with
  | nil => simp
  | cons hd tl ih =>
    obtain ⟨k', v'⟩ := hd
    rw [alistGet_cons, List.map_cons, List.mem_cons]
    by_cases h : k' = key
    · subst h
      simp
    · rw [if_neg h, ih]
      constructor
      · exact fun hm => Or.inr hm
      · rintro (hm | hm)
        · exact absurd hm.symm h
        · exact hm

theorem alistSet_append_of_not_mem {α : Type} {d : List (String × α)} {k : String}
    (v : α) (h : k ∉ d.map Prod.fst) : alistSet d k v = d ++ [(k, v)] := by
  induction d with
  | nil => rfl
  | cons hd tl ih =>
    obtain ⟨k', v'⟩ := hd
    simp only [List.map_cons, List.mem_cons] at h
    push_neg at h
    rw [alistSet, if_neg (fun e => h.1 e.symm), ih h.2]
    rfl

theorem resultsFold_eq_map (env : AgentEnv) (reqs : List AgentRequest)
    (init : List (String × List (String × PyVal)))
    (hdisj : ∀ r ∈ reqs, r.agentType ∉ init.map Prod.fst)
    (hnd : (reqs.map (fun r => r.agentType)).Nodup) :
    resultsFold env init reqs = init ++ reqs.map
      (fun r => (r.agentType, query_agent env r.agentType r.request r.context)) := by
  induction reqs generalizing init with
  | nil => simp [resultsFold]
  | cons r t ih =>
    rw [resultsFold, List.foldl_cons]
    simp only [List.map_cons, List.nodup_cons] at hnd
    rw [alistSet_append_of_not_mem _ (hdisj r (List.mem_cons_self _ _))]
    have hstep := ih (init ++
      [(r.agentType, query_agent env r.agentType r.request r.context)])
      (fun r' hr' => by
        simp only [List.map_append, List.mem_append, List.map_cons]
        rintro (hm | hm)
        · exact hdisj r' (List.mem_cons_of_mem _ hr') hm
        · simp only [List.map_nil, List.mem_singleton] at hm
          exact hnd.1 (hm ▸ List.mem_map_of_mem (fun r => r.agentType) hr'))
      hnd.2
    rw [resultsFold] at hstep
    rw [hstep, List.append_assoc]
    rfl

theorem alistGet_map_pair {β : Type} (f : AgentRequest → β) (reqs : List AgentRequest)
    (hnd : (reqs.map (fun r => r.agentType)).Nodup) {r : AgentRequest}
    (hr : r ∈ reqs) :
    alistGet (reqs.map (fun r => (r.agentType, f r))) r.agentType = some (f r) := by
  induction reqs with
  | nil => cases hr
  | cons r' t ih =>
    simp only [List.map_cons, List.nodup_cons] at hnd
    rcases List.mem_cons.mp hr with h | h
    · subst h
      rw [List.map_cons, alistGet_cons, if_pos rfl]
    · have hne : r'.agentType ≠ r.agentType := fun e =>
        hnd.1 (e ▸ List.mem_map_of_mem (fun r => r.agentType) h)
      rw [List.map_cons, alistGet_cons, if_neg hne]
      exact ih hnd.2 h

@[simp] theorem resultsFold_nil (env : AgentEnv) (init) : resultsFold env init [] = init := rfl

theorem resultsFold_cons (env : AgentEnv) (init) (r : AgentRequest) (t : List AgentRequest) :
    resultsFold env init (r :: t) = resultsFold env
      (alistSet init r.agentType (query_agent env r.agentType r.request r.context)) t := rfl

theorem mem_keys_resultsFold (env : AgentEnv) (reqs : List AgentRequest)
    (init : List (String × List (String × PyVal))) (k : String) :
    k ∈ (resultsFold env init reqs).map Prod.fst ↔
      k ∈ init.map Prod.fst ∨ ∃ r ∈ reqs, r.agentType = k := by
  induction reqs generalizing init with
  | nil => simp
  | cons r t ih =>
    rw [resultsFold_cons, ih]
    rw [mem_keys_alistSet]
    constructor
    · rintro ((hm | hm) | hm)
      · exact Or.inl hm
      · exact Or.inr ⟨r, List.mem_cons_self _ _, hm.symm⟩
      · obtain ⟨r', hr', hk⟩ := hm
        exact Or.inr ⟨r', List.mem_cons_of_mem _ hr', hk⟩
    · rintro (hm | hm)
      · exact Or.inl (Or.inl hm)
      · obtain ⟨r', hr', hk⟩ := hm
        rcases List.mem_cons.mp hr' with h | h
        · exact Or.inl (Or.inr (h ▸ hk).symm)
        · exact Or.inr ⟨r', h, hk⟩

/-- A concrete two-agent table used by the witnesses and counterexamples:
one agent whose handler returns a payload and one whose handler raises. -/
def sampleAgents : AgentEnv :=
  [("news", fun _ _ => Except.ok [("headline", PyVal.str "up")]),
   ("sentiment", fun _ _ => Except.error "boom")]

/-- Concrete request against the succeeding sample agent. -/
def reqNews : AgentRequest := { agentType := "news", request := "latest", context := Option.none }

/-- Concrete request against the raising sample agent. -/
def reqSent : AgentRequest := { agentType := "sentiment", request := "mood", context := Option.none }

/-- A concrete one-tool registry whose tool function raises. -/
def sampleTools : List (String × ToolSpec) :=
  [("load_scenario",
    { agentType := "multiple", fn := fun _ => Except.error "file missing" })]

/-- C1: per-capability failures never escape as exceptions.  `query_agent`
on an unknown agent name returns the error dict listing the available
agents; a handler that raises yields an error dict carrying `str(e)`;
every entry of a sequential or parallel batch's results map is a
`query_agent` return value (so batch dispatch surfaces failures only as
such dicts); and `call_tool` likewise maps an unknown tool name to an
error dict listing the available tools and a raising tool function to a
`success: False` dict carrying the message. -/
theorem failures_never_escape (env : AgentEnv) (tools : List (String × ToolSpec))
    (agentType request toolName : String) (ctx : Option PyVal)
    (kwargs : List (String × PyVal)) :
    (alistGet env agentType = Option.none →
      query_agent env agentType request ctx =
        [("error", PyVal.str ("Unknown agent type: " ++ agentType)),
         ("available_agents", PyVal.list (env.map (fun p => PyVal.str p.1)))]) ∧
    (∀ h msg, alistGet env agentType = some h → h request ctx = Except.error msg →
      query_agent env agentType request ctx =
        [("error", PyVal.str ("Agent '" ++ agentType ++
            "' failed to process request: " ++ msg)),
         ("agent", PyVal.str agentType)]) ∧
    (∀ reqs : List AgentRequest, ∀ k d,
      alistGet (query_agents_sequential env reqs).results k = some d →
      ∃ r ∈ reqs, r.agentType = k ∧
        d = query_agent env r.agentType r.request r.context) ∧
    (∀ reqs order : List AgentRequest, ∀ b, order.Perm reqs →
      query_agents_parallel env reqs order = Except.ok b →
      ∀ k d, alistGet b.results k = some d →
      ∃ r ∈ reqs, r.agentType = k ∧
        d = query_agent env r.agentType r.request r.context) ∧
    (alistGet tools toolName = Option.none →
      call_tool tools toolName kwargs =
        [("error", PyVal.str ("Tool '" ++ toolName ++ "' not found")),
         ("available_tools", PyVal.list (tools.map (fun p => PyVal.str p.1)))]) ∧
    (∀ t msg, alistGet tools toolName = some t → t.fn kwargs = Except.error msg →
      call_tool tools toolName kwargs =
        [("tool_name", PyVal.str toolName), ("success", PyVal.bool false),
         ("error", PyVal.str msg)]) := by
  refine ⟨?_, ?_, ?_, ?_, ?_, ?_⟩
  · intro hu
    rw [query_agent, hu]
  · intro h msg hh hraise
    rw [query_agent, hh]
    simp only [hraise]
  · intro reqs k d hd
    have hmem := alistGet_mem hd
    rcases resultsFold_entry_mem hmem with hm | hm
    · cases hm
    · obtain ⟨r, hr, hk, hval⟩ := hm
      exact ⟨r, hr, hk, hval⟩
  · intro reqs order b hperm hok k d hd
    rw [query_agents_parallel] at hok
    by_cases hne : reqs.isEmpty
    · rw [if_pos hne] at hok
      cases hok
    · rw [if_neg hne] at hok
      cases hok
      have hmem := alistGet_mem hd
      rcases resultsFold_entry_mem hmem with hm | hm
      · cases hm
      · obtain ⟨r, hr, hk, hval⟩ := hm
        exact ⟨r, hperm.mem_iff.mp hr, hk, hval⟩
  · intro hu
    rw [call_tool, hu]
  · intro t msg ht hraise
    rw [call_tool, ht]
    simp only [hraise]

/-- C1 witness: concrete instantiations against `sampleAgents` and a
one-tool registry whose function raises: the unknown-agent dict, the
wrapped handler exception, a batch entry traced back to its request, the
unknown-tool dict, and the wrapped tool exception. -/
theorem failures_never_escape_witness :
    query_agent sampleAgents "bogus" "hi" Option.none =
      [("error", PyVal.str "Unknown agent type: bogus"),
       ("available_agents", PyVal.list [PyVal.str "news", PyVal.str "sentiment"])] ∧
    query_agent sampleAgents "sentiment" "mood" Option.none =
      [("error", PyVal.str "Agent 'sentiment' failed to process request: boom"),
       ("agent", PyVal.str "sentiment")] ∧
    (∃ r ∈ [reqNews], r.agentType = "news" ∧
      query_agent sampleAgents "news" "latest" Option.none =
        query_agent sampleAgents r.agentType r.request r.context) ∧
    call_tool sampleTools "bogus_tool" [] =
      [("error", PyVal.str "Tool 'bogus_tool' not found"),
       ("available_tools", PyVal.list [PyVal.str "load_scenario"])] ∧
    call_tool sampleTools "load_scenario" [] =
      [("tool_name", PyVal.str "load_scenario"), ("success", PyVal.bool false),
       ("error", PyVal.str "file missing")] := by
  refine ⟨?_, ?_, ?_, ?_, ?_⟩
  · exact (failures_never_escape sampleAgents [] "bogus" "hi" "" Option.none []).1 rfl
  · exact (failures_never_escape sampleAgents [] "sentiment" "mood" "" Option.none
      []).2.1 (fun _ _ => Except.error "boom") "boom" rfl rfl
  · have hlook : alistGet (query_agents_sequential sampleAgents [reqNews]).results
        "news" = some (query_agent sampleAgents "news" "latest" Option.none) := rfl
    obtain ⟨r, hr, hk, hval⟩ := (failures_never_escape sampleAgents [] "x" "x" ""
      Option.none []).2.2.1 [reqNews] "news"
      (query_agent sampleAgents "news" "latest" Option.none) hlook
    exact ⟨r, hr, hk, by rw [hval, hk]⟩
  · exact (failures_never_escape sampleAgents sampleTools "x" "x" "bogus_tool"
      Option.none []).2.2.2.2.1 rfl
  · exact (failures_never_escape sampleAgents sampleTools "x" "x" "load_scenario"
      Option.none []).2.2.2.2.2
      { agentType := "multiple", fn := fun _ => Except.error "file missing" }
      "file missing" rfl rfl

/-- C2 counterexample: the mode-invariance claim quantifies over *every*
request set, but at the empty request set `_query_agents_parallel` raises
`ValueError` out of the dispatch (it constructs
`ThreadPoolExecutor(max_workers=len(requests))` and `max_workers = 0` is
rejected), while `_query_agents_sequential` returns an empty results map,
so the two modes do not even both return, let alone agree. -/
theorem dispatch_mode_counterexample :
    query_agents_parallel sampleAgents [] [] =
      Except.error "ValueError: max_workers must be greater than 0" ∧
    (query_agents_sequential sampleAgents []).results = [] :=
  ⟨rfl, rfl⟩

/-- C2 (amended): for a *non-empty* request list whose agent types are
pairwise distinct, parallel dispatch under any completion order and
sequential dispatch return batches with the same request count, the same
success count, and results maps that agree on every key (hence the same
key set and the same per-key success/failure classification).  The
non-emptiness is forced by the `ValueError` of the empty parallel batch,
and the distinctness by last-write-wins collisions: with duplicate agent
types the parallel map keeps whichever duplicate completes last. -/
theorem dispatch_mode_equivalence (env : AgentEnv) (reqs order : List AgentRequest)
    (hne : reqs ≠ []) (hnd : (reqs.map (fun r => r.agentType)).Nodup)
    (hperm : order.Perm reqs) :
    ∃ b : BatchResult, query_agents_parallel env reqs order = Except.ok b ∧
      b.agentsQueried = (query_agents_sequential env reqs).agentsQueried ∧
      b.successfulQueries = (query_agents_sequential env reqs).successfulQueries ∧
      (∀ k, alistGet b.results k =
        alistGet (query_agents_sequential env reqs).results k) := by
  have hnd' : (order.map (fun r => r.agentType)).Nodup :=
    ((hperm.map (fun r => r.agentType)).nodup_iff).mpr hnd
  have hpar := resultsFold_eq_map env order [] (by simp) hnd'
  have hseq := resultsFold_eq_map env reqs [] (by simp) hnd
  rw [List.nil_append] at hpar hseq
  have hmap : (order.map (fun r => (r.agentType,
      query_agent env r.agentType r.request r.context))).Perm
      (reqs.map (fun r => (r.agentType,
      query_agent env r.agentType r.request r.context))) :=
    hperm.map _
  rw [query_agents_parallel, if_neg (by simpa using hne)]
  refine ⟨_, rfl, rfl, ?_, ?_⟩
  · show countSuccesses (resultsFold env [] order) =
      countSuccesses (resultsFold env [] reqs)
    rw [hpar, hseq, countSuccesses, countSuccesses]
    exact (hmap.filter _).length_eq
  · intro k
    show alistGet (resultsFold env [] order) k =
      alistGet (resultsFold env [] reqs) k
    rw [hpar, hseq]
    by_cases hk : k ∈ reqs.map (fun r => r.agentType)
    · obtain ⟨r, hr, rfl⟩ := List.mem_map.mp hk
      rw [alistGet_map_pair _ reqs hnd hr,
        alistGet_map_pair _ order hnd' (hperm.mem_iff.mpr hr)]
    · have hko : k ∉ order.map (fun r => r.agentType) := fun hm =>
        hk ((hperm.map (fun r => r.agentType)).mem_iff.mp hm)
      rw [alistGet_eq_none_of_not_mem_keys (by
          rw [List.map_map]
          exact hko),
        alistGet_eq_none_of_not_mem_keys (by
          rw [List.map_map]
          exact hk)]

/-- C2 witness: a concrete two-request batch (one success, one wrapped
handler failure) dispatched sequentially and in parallel under the
reversed completion order: both classification-relevant fields agree. -/
theorem dispatch_mode_equivalence_witness :
    ∃ b : BatchResult,
      query_agents_parallel sampleAgents [reqNews, reqSent] [reqSent, reqNews] =
        Except.ok b ∧
      b.agentsQueried =
        (query_agents_sequential sampleAgents [reqNews, reqSent]).agentsQueried ∧
      b.successfulQueries =
        (query_agents_sequential sampleAgents [reqNews, reqSent]).successfulQueries ∧
      (∀ k, alistGet b.results k =
        alistGet (query_agents_sequential sampleAgents [reqNews, reqSent]).results k) :=
  dispatch_mode_equivalence sampleAgents [reqNews, reqSent] [reqSent, reqNews]
    (by simp) (by decide) (List.Perm.swap reqNews reqSent [])

/-- C8 counterexample: a batch containing the unknown capability name
"bogus" is not rejected before dispatch — `query_agent` runs for it and
the results map gains a "bogus" entry holding the unknown-agent error
dict, so the results map is not limited to one entry per *known* requested
capability. -/
theorem batch_unknown_not_rejected_counterexample :
    alistGet sampleAgents "bogus" = Option.none ∧
    alistGet (query_agents_sequential sampleAgents
        [reqNews, { agentType := "bogus", request := "x", context := Option.none }]).results
        "bogus" =
      some [("error", PyVal.str "Unknown agent type: bogus"),
        ("available_agents", PyVal.list [PyVal.str "news", PyVal.str "sentiment"])] :=
  ⟨rfl, rfl⟩

/-- C8 (amended): every dispatch reports `total = len(requests)`; the
success count is the number of results-map entries without an `"error"`
key (cached results do not exist on this path — `AgentManager` has no
cache); and the results map has exactly one entry per *distinct requested*
capability name, known or unknown — unknown names are dispatched like any
other and contribute `Error` entries rather than being rejected before
dispatch. -/
theorem batch_result_accounting (env : AgentEnv) (reqs order : List AgentRequest) :
    (query_agents_sequential env reqs).agentsQueried = reqs.length ∧
    (query_agents_sequential env reqs).successfulQueries =
      ((query_agents_sequential env reqs).results.filter
        (fun kv => !hasKey kv.2 "error")).length ∧
    (∀ k, (alistGet (query_agents_sequential env reqs).results k).isSome =
      reqs.any (fun r => r.agentType == k)) ∧
    (reqs ≠ [] → ∀ b, query_agents_parallel env reqs order = Except.ok b →
      b.agentsQueried = reqs.length ∧
      ∀ k, (alistGet b.results k).isSome = order.any (fun r => r.agentType == k)) := by
  have hkeys : ∀ (rs : List AgentRequest) (k : String),
      (alistGet (resultsFold env [] rs) k).isSome = rs.any (fun r => r.agentType == k) := by
    intro rs k
    rw [Bool.eq_iff_iff, alistGet_isSome_iff_mem_keys, mem_keys_resultsFold,
      List.any_eq_true]
    simp only [List.map_nil, List.not_mem_nil, false_or, beq_iff_eq]
  refine ⟨rfl, rfl, fun k => hkeys reqs k, ?_⟩
  intro hne b hok
  rw [query_agents_parallel, if_neg (by simpa using hne)] at hok
  cases hok
  exact ⟨rfl, fun k => hkeys order k⟩

/-- C8 witness: the accounting theorem applied to a concrete three-request
batch (success, wrapped failure, unknown name): the total is 3, the
success count is 1, and both the "news" and the unknown "bogus" key are
present. -/
theorem batch_result_accounting_witness :
    (query_agents_sequential sampleAgents
      [reqNews, reqSent, { agentType := "bogus", request := "x", context := Option.none }]).agentsQueried = 3 ∧
    (alistGet (query_agents_sequential sampleAgents
      [reqNews, reqSent, { agentType := "bogus", request := "x", context := Option.none }]).results
      "news").isSome = true ∧
    (alistGet (query_agents_sequential sampleAgents
      [reqNews, reqSent, { agentType := "bogus", request := "x", context := Option.none }]).results
      "bogus").isSome = true := by
  refine ⟨(batch_result_accounting sampleAgents
      [reqNews, reqSent, { agentType := "bogus", request := "x", context := Option.none }] []).1, ?_, ?_⟩
  · rw [(batch_result_accounting sampleAgents
      [reqNews, reqSent, { agentType := "bogus", request := "x", context := Option.none }] []).2.2.1 "news"]
    decide
  · rw [(batch_result_accounting sampleAgents
      [reqNews, reqSent, { agentType := "bogus", request := "x", context := Option.none }] []).2.2.1 "bogus"]
    decide

/-! ## Session history (`AgentManager._log_interaction`, lines 343-356) -/

/-- `_log_interaction`'s history update: append the interaction record;
if the history now exceeds 100 entries, keep only the last 100
(`self.session_history = self.session_history[-100:]`).  The record
contents (timestamp, agent type, request, response size, success flag)
play no role in the bound or the eviction order, so the update is stated
over an arbitrary record type. -/
def logInteraction {α : Type} (history : List α) (record : α) : List α :=
  let h := history ++ [record]
  if h.length > 100 then h.drop (h.length - 100) else h

theorem logInteraction_append {α : Type} (t : List α) (a : α) :
    logInteraction (t.drop (t.length - 100)) a =
      (t ++ [a]).drop ((t ++ [a]).length - 100) := by
  by_cases hn : t.length ≤ 100
  · rw [Nat.sub_eq_zero_of_le hn, List.drop_zero, logInteraction]
    split_ifs with h
    · rfl
    · rw [Nat.sub_eq_zero_of_le (Nat.le_of_not_lt h), List.drop_zero]
  · push_neg at hn
    rw [logInteraction]
    have hX : (t.drop (t.length - 100)).length = 100 := by
      rw [List.length_drop]
      omega
    have hcond : (t.drop (t.length - 100) ++ [a]).length > 100 := by
      rw [List.length_append, hX, List.length_singleton]
      omega
    rw [if_pos hcond]
    have hlen2 : (t.drop (t.length - 100) ++ [a]).length - 100 = 1 := by
      rw [List.length_append, hX, List.length_singleton]
    rw [hlen2, List.drop_append_of_le_length (by rw [hX]; omega), List.drop_drop]
    have hr : (t ++ [a]).length - 100 = 1 + (t.length - 100) := by
      rw [List.length_append, List.length_singleton]
      omega
    rw [hr, List.drop_append_of_le_length (by omega), Nat.add_comm]

theorem foldl_logInteraction_eq_drop {α : Type} (l : List α) :
    List.foldl logInteraction ([] : List α) l = l.drop (l.length - 100) := by
  induction l using List.reverseRecOn with
  | nil => rfl
  | append_singleton t a ih =>
    rw [List.foldl_append, List.foldl_cons, List.foldl_nil, ih,
      logInteraction_append]

set_option maxRecDepth 4000 in
/-- C6: the session history never exceeds 100 records after any sequence
of `_log_interaction` calls starting from empty, and eviction is strict
FIFO: labelling the i-th record call with the number i, after 150 calls
the history is exactly the labels 51..150 in append order (length 100),
records of calls 1-50 are absent and records of calls 51-150 are present. -/
theorem session_history_ring_buffer :
    (∀ l : List ℕ, (List.foldl logInteraction ([] : List ℕ) l).length ≤ 100) ∧
    List.foldl logInteraction ([] : List ℕ) (List.range' 1 150) =
      List.range' 51 100 ∧
    (List.foldl logInteraction ([] : List ℕ) (List.range' 1 150)).length = 100 ∧
    (∀ i : ℕ, i ∈ List.foldl logInteraction ([] : List ℕ) (List.range' 1 150) ↔
      51 ≤ i ∧ i ≤ 150) := by
  have h150 : List.foldl logInteraction ([] : List ℕ) (List.range' 1 150) =
      List.range' 51 100 := by
    rw [foldl_logInteraction_eq_drop]
    decide
  refine ⟨?_, h150, ?_, ?_⟩
  · intro l
    rw [foldl_logInteraction_eq_drop, List.length_drop]
    omega
  · rw [h150, List.length_range']
  · intro i
    rw [h150, List.mem_range'_1]
    omega

/-! ## Parallel worker counts -/

/-- The `max_workers` argument that `AgentManager._query_agents_parallel`
passes to `ThreadPoolExecutor` (`src/agents/agent_manager.py`, line 84):
`len(requests)`, uncapped. -/
def agentManagerParallelWorkers (numRequests : ℕ) : ℕ := numRequests

/-- The `max_workers` argument that
`TradingAssistant._execute_tools_parallel` passes to `ThreadPoolExecutor`
(`src/scripts/trading_assistant.py`, line 234): `min(len(tool_calls), 4)`;
the executor is only created for two or more tool calls (a single call is
executed inline). -/
def assistantParallelWorkers (numToolCalls : ℕ) : ℕ := min numToolCalls 4

/-- C9 counterexample: a five-request parallel batch — e.g. one request
per registered agent — exceeds the claimed `min(len(requests), 4)` bound:
`AgentManager` passes `max_workers = len(requests) = 5 > 4`. -/
theorem worker_bound_counterexample :
    agentManagerParallelWorkers 5 = 5 ∧
    ¬agentManagerParallelWorkers 5 ≤ min 5 4 := by
  refine ⟨rfl, by decide⟩

/-- C9 (amended): the trading assistant's parallel tool execution bounds
its worker count by `min(len(tool_calls), 4)` with the cap 4, but
`AgentManager`'s parallel dispatch passes exactly `len(requests)` workers,
with no cap. -/
theorem parallel_worker_counts (n : ℕ) :
    assistantParallelWorkers n = min n 4 ∧
    assistantParallelWorkers n ≤ 4 ∧
    assistantParallelWorkers n ≤ n ∧
    agentManagerParallelWorkers n = n :=
  ⟨rfl, Nat.min_le_right n 4, Nat.min_le_left n 4, rfl⟩

/-! ## Sentiment synthesis

`AgentManager._synthesize_analysis` (`src/agents/agent_manager.py`, lines
191-204) collects `composite_sentiment` values only from the sentiment
agent's `sentiment_data` map and classifies their mean against the
thresholds ±0.3; `ComprehensiveAnalysisAgent._generate_comprehensive_summary`
(`src/agents/comprehensive_analysis_agent.py`, lines 217-227) does the
same over the `sentiment` entry of its results (inside a `success`-gated
loop) but against the thresholds ±0.2. -/

/-- `data.get("composite_sentiment", 0)` for one entry of the
`sentiment_data` dict.  A non-dict entry would raise `AttributeError` in
Python and a non-numeric field would raise `TypeError` at the `sum`; the
embedding confines those unreachable shapes to the 0 default. -/
def compositeOf (data : PyVal) : ℚ :=
  match data with
  | PyVal.dict d =>
    match alistGet d "composite_sentiment" with
    | some (PyVal.num q) => q
    | _ => 0
  | _ => 0

/-- The `sentiment_signals` list of `_synthesize_analysis` (lines 192-197):
present only when the `sentiment` entry exists, carries no `error` key and
has a `sentiment_data` dict; one value per `sentiment_data` item. -/
def sentimentSignals (agentResults : List (String × List (String × PyVal))) :
    List ℚ :=
  match alistGet agentResults "sentiment" with
  | some sres =>
    if hasKey sres "error" then []
    else
      match alistGet sres "sentiment_data" with
      | some (PyVal.dict sd) => sd.map (fun p => compositeOf p.2)
      | _ => []
  | Option.none => []

/-- The `overall_sentiment` field computed by `_synthesize_analysis`
(lines 199-204): starts `"neutral"`; with a non-empty signal list, a mean
above 0.3 gives `"bullish"` and below -0.3 gives `"bearish"`. -/
def overallSentiment (agentResults : List (String × List (String × PyVal))) :
    String :=
  let signals := sentimentSignals agentResults
  if signals.isEmpty then "neutral"
  else
    let avg := signals.sum / (signals.length : ℚ)
    if avg > 3/10 then "bullish"
    else if avg < -(3/10) then "bearish"
    else "neutral"

/-- The `sentiments` list of `_generate_comprehensive_summary` (lines
218-221): values of the `sentiment` entry, gated on a truthy `success`
field, read from `result["result"]["sentiment_data"]`
(`result.get("result", {})` defaults to an empty dict). -/
def comprehensiveSignals
    (analysisResults : List (String × List (String × PyVal))) : List ℚ :=
  match alistGet analysisResults "sentiment" with
  | some r =>
    if (match alistGet r "success" with
        | some v => pyTruthy v
        | Option.none => false) then
      match alistGet r "result" with
      | some (PyVal.dict rd) =>
        match alistGet rd "sentiment_data" with
        | some (PyVal.dict sd) => sd.map (fun p => compositeOf p.2)
        | _ => []
      | _ => []
    else []
  | Option.none => []

/-- The `overall_sentiment` field of the comprehensive summary (lines
222-227): thresholds ±0.2, otherwise the same mean rule. -/
def comprehensiveOverallSentiment
    (analysisResults : List (String × List (String × PyVal))) : String :=
  let sentiments := comprehensiveSignals analysisResults
  if sentiments.isEmpty then "neutral"
  else
    let avg := sentiments.sum / (sentiments.length : ℚ)
    if avg > 1/5 then "bullish"
    else if avg < -(1/5) then "bearish"
    else "neutral"

/-- Canonical sentiment-agent results carrying the labelled composite
sentiment values `pairs`, shaped as `_synthesize_analysis` expects. -/
def mkSentimentResults (pairs : List (String × ℚ)) :
    List (String × List (String × PyVal)) :=
  [("sentiment",
    [("sentiment_data", PyVal.dict (pairs.map (fun p =>
      (p.1, PyVal.dict [("composite_sentiment", PyVal.num p.2)]))))])]

/-- Canonical comprehensive-analysis results carrying the labelled
composite sentiment values `pairs`, shaped as
`_generate_comprehensive_summary` expects. -/
def mkComprehensiveResults (pairs : List (String × ℚ)) :
    List (String × List (String × PyVal)) :=
  [("sentiment",
    [("success", PyVal.bool true),
     ("result", PyVal.dict [("sentiment_data", PyVal.dict (pairs.map (fun p =>
       (p.1, PyVal.dict [("composite_sentiment", PyVal.num p.2)]))))])])]

/-- The mean-threshold classification rule at threshold `θ`. -/
def thresholdLabel (θ : ℚ) (vals : List ℚ) : String :=
  if vals.isEmpty then "neutral"
  else
    let avg := vals.sum / (vals.length : ℚ)
    if avg > θ then "bullish" else if avg < -θ then "bearish" else "neutral"

theorem sentimentSignals_mk (pairs : List (String × ℚ)) :
    sentimentSignals (mkSentimentResults pairs) = pairs.map Prod.snd := by
  have h1 : sentimentSignals (mkSentimentResults pairs) =
      (pairs.map (fun p =>
        (p.1, PyVal.dict [("composite_sentiment", PyVal.num p.2)]))).map
        (fun p => compositeOf p.2) := rfl
  rw [h1, List.map_map]
  exact List.map_congr_left (fun p hp => rfl)

theorem comprehensiveSignals_mk (pairs : List (String × ℚ)) :
    comprehensiveSignals (mkComprehensiveResults pairs) = pairs.map Prod.snd := by
  have h1 : comprehensiveSignals (mkComprehensiveResults pairs) =
      (pairs.map (fun p =>
        (p.1, PyVal.dict [("composite_sentiment", PyVal.num p.2)]))).map
        (fun p => compositeOf p.2) := rfl
  rw [h1, List.map_map]
  exact List.map_congr_left (fun p hp => rfl)

theorem overallSentiment_mk_eq (pairs : List (String × ℚ)) :
    overallSentiment (mkSentimentResults pairs) =
      thresholdLabel (3/10) (pairs.map Prod.snd) := by
  rw [overallSentiment, sentimentSignals_mk, thresholdLabel]

theorem comprehensiveOverallSentiment_mk_eq (pairs : List (String × ℚ)) :
    comprehensiveOverallSentiment (mkComprehensiveResults pairs) =
      thresholdLabel (1/5) (pairs.map Prod.snd) := by
  rw [comprehensiveOverallSentiment, comprehensiveSignals_mk, thresholdLabel]

/-- C7 counterexample: the claim ("bullish iff the mean of the collected
composite sentiment values exceeds 0.3, bearish iff below -0.3, neutral
otherwise", citing both synthesis sites) fails at
`_generate_comprehensive_summary`: a batch whose only composite sentiment
value is 0.25 — mean 0.25, inside [-0.3, 0.3], so "neutral" under the
claimed rule — is classified "bullish", because that site compares against
±0.2, not ±0.3.  Moreover the code does not scan every Success payload: a
composite sentiment carried by a non-sentiment agent's payload is ignored
entirely by `_synthesize_analysis` (last conjunct), where the claimed rule
would collect the value 0.5 and report "bullish". -/
theorem sentiment_threshold_counterexample :
    comprehensiveSignals (mkComprehensiveResults [("AAPL", 1/4)]) = [1/4] ∧
    comprehensiveOverallSentiment (mkComprehensiveResults [("AAPL", 1/4)]) =
      "bullish" ∧
    ¬((1/4 : ℚ) > 3/10) ∧ ¬((1/4 : ℚ) < -(3/10)) ∧
    overallSentiment
      [("market_data",
        [("sentiment_data", PyVal.dict
          [("SPY", PyVal.dict [("composite_sentiment", PyVal.num (1/2))])])])] =
      "neutral" := by
  refine ⟨?_, ?_, by norm_num, by norm_num, rfl⟩
  · rw [comprehensiveSignals_mk]
    rfl
  · rw [comprehensiveOverallSentiment_mk_eq, thresholdLabel]
    norm_num

/-- C7 (amended): both synthesis sites collect composite sentiment values
only from the sentiment capability's `sentiment_data` entries (an entry
without the field contributes the default 0), not from every Success
payload; `AgentManager._synthesize_analysis` applies the mean rule with
thresholds ±0.3 — so signals [0.5, 0.4] give bullish, [-0.5, -0.4] give
bearish and [0.1, -0.1] give neutral there — while the comprehensive
summary applies the same rule with thresholds ±0.2. -/
theorem sentiment_synthesis_rule (pairs : List (String × ℚ)) :
    overallSentiment (mkSentimentResults pairs) =
      thresholdLabel (3/10) (pairs.map Prod.snd) ∧
    comprehensiveOverallSentiment (mkComprehensiveResults pairs) =
      thresholdLabel (1/5) (pairs.map Prod.snd) ∧
    overallSentiment (mkSentimentResults [("A", 1/2), ("B", 2/5)]) = "bullish" ∧
    overallSentiment
      (mkSentimentResults [("A", -(1/2)), ("B", -(2/5))]) = "bearish" ∧
    overallSentiment
      (mkSentimentResults [("A", 1/10), ("B", -(1/10))]) = "neutral" := by
  refine ⟨overallSentiment_mk_eq pairs, comprehensiveOverallSentiment_mk_eq pairs,
    ?_, ?_, ?_⟩
  · rw [overallSentiment_mk_eq, thresholdLabel]
    norm_num
  · rw [overallSentiment_mk_eq, thresholdLabel]
    norm_num
  · rw [overallSentiment_mk_eq, thresholdLabel]
    norm_num

/-! ## `TradingAssistant._execute_tool_with_cache`
(`src/scripts/trading_assistant.py`, lines 199-222)

The cache key is `f"{tool_name}:{json.dumps(args, sort_keys=True)}"`; on a
*truthy* cached value the marker-prefixed cached string is returned (the
`if cached_result:` test), otherwise the tool is invoked through the
registry, a successful dict result is serialized to JSON and cached, and a
failing call is reported as text.  The `except` branch around the registry
call is dead code (`call_tool` catches every exception itself). -/

/-- Lexicographic comparison of two keys as character lists (Python string
ordering, used by `sort_keys=True`; keys of a Python dict are distinct, so
ties do not arise). -/
def charsLe : List Char → List Char → Bool
  | [], _ => true
  | _ :: _, [] => false
  | a :: as, b :: bs => if a < b then true else if b < a then false else charsLe as bs

/-- `a <= b` on key strings. -/
def keyLe (a b : String) : Bool := charsLe a.toList b.toList

/-- Insertion step of the stable key sort. -/
def insertByKey (p : String × PyVal) :
    List (String × PyVal) → List (String × PyVal)
  | [] => [p]
  | q :: rest => if keyLe p.1 q.1 then p :: q :: rest else q :: insertByKey p rest

/-- The key ordering applied by `json.dumps(args, sort_keys=True)` at the
top level of the argument dict (nested dicts are not sorted here; the
argument maps passed by the assistant are flat). -/
def sortKeys : List (String × PyVal) → List (String × PyVal)
  | [] => []
  | p :: rest => insertByKey p (sortKeys rest)

mutual
/-- `json.dumps` with the default separators; numbers are rendered through
the rational `toString` (the textual form of a float differs, which no
claim touches) and string escaping is omitted. -/
def jsonOf : PyVal → String
  | PyVal.num q => toString q
  | PyVal.str s => "\"" ++ s ++ "\""
  | PyVal.bool b => if b then "true" else "false"
  | PyVal.none => "null"
  | PyVal.list l => "[" ++ jsonOfList l ++ "]"
  | PyVal.dict d => "\x7b" ++ jsonOfDict d ++ "\x7d"

/-- Elements of a JSON array, comma separated. -/
def jsonOfList : List PyVal → String
  | [] => ""
  | [v] => jsonOf v
  | v :: rest => jsonOf v ++ ", " ++ jsonOfList rest

/-- Entries of a JSON object, comma separated. -/
def jsonOfDict : List (String × PyVal) → String
  | [] => ""
  | [(k, v)] => "\"" ++ k ++ "\": " ++ jsonOf v
  | (k, v) :: rest => "\"" ++ k ++ "\": " ++ jsonOf v ++ ", " ++ jsonOfDict rest
end

/-- Python `str()` of a value interpolated into an f-string.  Every value
the assistant caches is a string (dict results are serialized before
`cache.set`), so only the first clause is reachable there; containers fall
back to the JSON rendering (Python would use `repr`). -/
def pyStr : PyVal → String
  | PyVal.str s => s
  | PyVal.bool b => if b then "True" else "False"
  | PyVal.none => "None"
  | PyVal.num q => toString q
  | v => jsonOf v

/-- The prefix of a cache-served result,
`f"<marker> [Cached] {cached_result}"` (the marker characters are taken
byte-for-byte from the source file). -/
def cachedMarker : String := "üìã [Cached] "

/-- `cache_key = f"{tool_name}:{json.dumps(args, sort_keys=True)}"`. -/
def cacheKeyOf (toolName : String) (args : List (String × PyVal)) : String :=
  toolName ++ ":" ++ jsonOf (PyVal.dict (sortKeys args))

/-- The assistant state touched by `_execute_tool_with_cache`: the cache
and the two stats counters it updates (`tools_called`, `cache_hits`); the
remaining stats fields are never read or written by this function. -/
structure AssistantState where
  cache : ToolCache
  toolsCalled : ℕ
  cacheHits : ℕ

/-- Result of one `_execute_tool_with_cache` run: the returned value, the
state after the run, and the registry calls made (empty exactly when the
result was served from the cache). -/
structure ExecOutcome where
  output : PyVal
  state : AssistantState
  calls : List (String × List (String × PyVal))

/-- The non-cached path of `_execute_tool_with_cache` (lines 208-222):
invoke the tool through the registry; on a truthy `success` field take
`result` (default `{}`), serialize a dict result to JSON, cache it and
count the call; otherwise report `f"Tool {tool_name} failed: {error}"`
with the error message defaulting to "Unknown error". -/
def execFresh (tools : List (String × ToolSpec)) (st : AssistantState)
    (now : ℚ) (toolName : String) (args : List (String × PyVal))
    (cacheKey : String) : ExecOutcome :=
  let toolResult := call_tool tools toolName args
  let success := match alistGet toolResult "success" with
    | some v => pyTruthy v
    | Option.none => false
  if success then
    let result0 := (alistGet toolResult "result").getD (PyVal.dict [])
    let result := match result0 with
      | PyVal.dict d => PyVal.str (jsonOf (PyVal.dict d))
      | v => v
    let newCache := st.cache.set now cacheKey result
    { output := result,
      state := { st with cache := newCache, toolsCalled := st.toolsCalled + 1 },
      calls := [(toolName, args)] }
  else
    let errMsg := match alistGet toolResult "error" with
      | some v => pyStr v
      | Option.none => "Unknown error"
    { output := PyVal.str ("Tool " ++ toolName ++ " failed: " ++ errMsg),
      state := st, calls := [(toolName, args)] }

/-- `TradingAssistant._execute_tool_with_cache` (lines 199-222): read the
cache (which may lazily evict an expired entry); serve a *truthy* cached
value with the cached marker and count a cache hit; on a falsy cached
value or a miss, fall through to the fresh invocation path. -/
def execToolWithCache (tools : List (String × ToolSpec)) (st : AssistantState)
    (now : ℚ) (toolName : String) (args : List (String × PyVal)) : ExecOutcome :=
  let cacheKey := cacheKeyOf toolName args
  let got := st.cache.get now cacheKey
  let st1 := { st with cache := got.2 }
  match got.1 with
  | some v =>
    if pyTruthy v then
      { output := PyVal.str (cachedMarker ++ pyStr v),
        state := { st1 with cacheHits := st1.cacheHits + 1 },
        calls := [] }
    else execFresh tools st1 now toolName args cacheKey
  | Option.none => execFresh tools st1 now toolName args cacheKey

theorem execFresh_calls (tools) (st : AssistantState) (now : ℚ)
    (toolName : String) (args) (cacheKey : String) :
    (execFresh tools st now toolName args cacheKey).calls = [(toolName, args)] := by
  rw [execFresh]
  split_ifs with h
  · rfl
  · rfl

theorem execFresh_output_const (tools) (st st' : AssistantState) (now now' : ℚ)
    (toolName : String) (args) (cacheKey cacheKey' : String) :
    (execFresh tools st now toolName args cacheKey).output =
      (execFresh tools st' now' toolName args cacheKey').output := by
  rw [execFresh, execFresh]
  split_ifs with h
  · rfl
  · rfl

/-- C10: when the cache holds an unexpired entry for the tool's key, the
`if cached_result:` truthiness test gates serving it: a truthy value is
returned with the cached marker prefixed, a cache hit is counted and the
registry is not called; a falsy value (e.g. the empty string) is treated
exactly like a miss — the capability is re-invoked through the registry
and the returned value is the fresh path's output, identical to what a run
without the entry would return. -/
theorem cache_truthiness_gate (tools : List (String × ToolSpec))
    (st : AssistantState) (now : ℚ) (toolName : String)
    (args : List (String × PyVal)) (v : PyVal) (ts : ℚ)
    (hnd : (st.cache.cache.map Prod.fst).Nodup)
    (hv : alistGet st.cache.cache (cacheKeyOf toolName args) = some v)
    (hts : alistGet st.cache.timestamps (cacheKeyOf toolName args) = some ts)
    (hfresh : now - ts ≤ st.cache.ttl) :
    (pyTruthy v = true →
      execToolWithCache tools st now toolName args =
        { output := PyVal.str (cachedMarker ++ pyStr v),
          state := { st with cacheHits := st.cacheHits + 1 },
          calls := [] }) ∧
    (pyTruthy v = false →
      (execToolWithCache tools st now toolName args).calls =
        [(toolName, args)] ∧
      (execToolWithCache tools st now toolName args).output =
        (execToolWithCache tools
          { st with cache :=
            { st.cache with
              cache := alistDel st.cache.cache (cacheKeyOf toolName args),
              timestamps :=
                alistDel st.cache.timestamps (cacheKeyOf toolName args) } }
          now toolName args).output) := by
  have hget : st.cache.get now (cacheKeyOf toolName args) = (some v, st.cache) := by
    rw [ToolCache.get]
    simp only [hv, hts]
    rw [if_neg (by simpa using not_lt.mpr hfresh)]
  constructor
  · intro htrue
    rw [execToolWithCache]
    simp only [hget]
    rw [if_pos htrue]
  · intro hfalse
    have hmiss : ∀ st' : AssistantState,
        alistGet st'.cache.cache (cacheKeyOf toolName args) = Option.none →
        execToolWithCache tools st' now toolName args =
          execFresh tools { st' with cache := st'.cache } now toolName args
            (cacheKeyOf toolName args) := by
      intro st' hnone
      rw [execToolWithCache]
      have : st'.cache.get now (cacheKeyOf toolName args) = (Option.none, st'.cache) := by
        rw [ToolCache.get, hnone]
      simp only [this]
    have hlhs : execToolWithCache tools st now toolName args =
        execFresh tools { st with cache := st.cache } now toolName args
          (cacheKeyOf toolName args) := by
      rw [execToolWithCache]
      simp only [hget]
      rw [if_neg (by simp [hfalse])]
    rw [hlhs]
    constructor
    · exact execFresh_calls tools _ now toolName args _
    · rw [hmiss { st with cache :=
        { st.cache with
          cache := alistDel st.cache.cache (cacheKeyOf toolName args),
          timestamps :=
            alistDel st.cache.timestamps (cacheKeyOf toolName args) } }
        (alistGet_alistDel_self _ hnd)]
      exact execFresh_output_const tools _ _ now now toolName args _ _

/-- An assistant state whose cache holds `v` (written at time 0, TTL 600)
under the key of a no-argument `check_market_conditions` call. -/
def stWithCached (v : PyVal) : AssistantState :=
  { cache := (ToolCache.init 600).set 0
      (cacheKeyOf "check_market_conditions" []) v,
    toolsCalled := 0, cacheHits := 0 }

/-- C10 witness: with the truthy cached string "done" the call is served
from the cache (marker prefixed, no registry call, one cache hit counted);
with the falsy cached empty string the registry is invoked. -/
theorem cache_truthiness_gate_witness :
    execToolWithCache [] (stWithCached (PyVal.str "done")) 100
        "check_market_conditions" [] =
      { output := PyVal.str (cachedMarker ++ "done"),
        state := { stWithCached (PyVal.str "done") with cacheHits := 1 },
        calls := [] } ∧
    (execToolWithCache [] (stWithCached (PyVal.str "")) 100
        "check_market_conditions" []).calls =
      [("check_market_conditions", [])] := by
  constructor
  · exact (cache_truthiness_gate [] (stWithCached (PyVal.str "done")) 100
      "check_market_conditions" [] (PyVal.str "done") 0
      (by simp [stWithCached, ToolCache.init, ToolCache.set, alistSet])
      rfl rfl
      (by norm_num [stWithCached, ToolCache.init, ToolCache.set])).1 rfl
  · exact ((cache_truthiness_gate [] (stWithCached (PyVal.str "")) 100
      "check_market_conditions" [] (PyVal.str "") 0
      (by simp [stWithCached, ToolCache.init, ToolCache.set, alistSet])
      rfl rfl
      (by norm_num [stWithCached, ToolCache.init, ToolCache.set])).2 rfl).1
